import Mathlib

/-!
Verification of the warera-tracker client against its design document.

The development shallowly embeds the TypeScript sources:

* src/services/api.ts — the WarEraAPI class (country cache, user fetch with
  the derived active flag, authenticated citizenship-change fetch);
* src/views/CitizenshipTracker.vue — the orchestration loop
  (fetchPlayersAndChanges) and the presentation pipeline (flattening,
  sorting, filtering, grouping).

Modelling conventions:

* Timestamps are milliseconds since the epoch, as Int.  The JavaScript Date
  parser (a platform primitive, external to the repository) is modelled by
  parseDate below: a string either parses to a millisecond value or yields
  none, which stands for an Invalid Date (getTime() = NaN).  The empty
  string never parses, as in JavaScript.
* JavaScript truthiness on strings (empty string is falsy) is modelled
  explicitly; optional object fields become Option.
* The network is an explicit parameter: each operation that would perform an
  HTTP request takes the would-be response as an Except value and reports
  how many requests it performed, so that absence of a network attempt is a
  provable statement.
* The country cache (a JavaScript Map used only through get / set / has) is
  modelled as a function from keys to Option Country.
* Array.prototype.sort with a comparator is required to be stable; it is
  modelled by insertion sort, which agrees with every stable sort whenever
  the comparator is consistent.  Where the comparator returns NaN the
  ECMAScript SortCompare treats the result as 0, so the model ties such
  pairs.
-/

namespace WarEra

/-- Decimal reading of a character list, accumulator style; any non-digit
character makes the whole string unreadable. -/
def parseDigits : List Char → Nat → Option Nat
  | [], acc => some acc
  | c :: cs, acc =>
    if c.isDigit then parseDigits cs (10 * acc + (c.toNat - 48)) else none

/-- Model of the JavaScript Date parser, external to the repository: a date
string either parses to a millisecond timestamp or is an Invalid Date
(none).  Timestamps are written as decimal digit strings in the model; the
empty string and any non-digit string are invalid, as in JavaScript the
empty string never parses. -/
def parseDate (s : String) : Option Int :=
  if s = "" then none else (parseDigits s.data 0).map (fun n => (n : Int))

/-- JavaScript string disjunction a || b: the empty string is falsy. -/
def jsOrStr (a b : String) : String :=
  if a = "" then b else a

/-- JavaScript disjunction a || b on values that may be undefined (none) or
a string; both undefined and the empty string are falsy. -/
def jsOrOpt (a b : Option String) : Option String :=
  match a with
  | none => b
  | some s => if s = "" then b else some s

/-- Country record from src/services/api.ts (interface Country). -/
structure Country where
  _id : String
  name : String
  code : Option String
  flagUrl : Option String
deriving DecidableEq, Repr

/-- User record as used by getUserLite: the raw response field
dates.lastConnectionAt (possibly absent) together with the identifier and
username, plus the derived active flag (interface UserLite). -/
structure UserData where
  _id : String
  username : String
  lastConnectionAt : Option String
  active : Bool
deriving DecidableEq, Repr

/-- The loosely typed data payload of a citizenship change
(interface CitizenshipChange, field data).  The legacy field names from and
to are rendered as fromLegacy and toLegacy because from is a Lean keyword. -/
structure ChangeData where
  fromCountryId : Option String
  toCountryId : Option String
  fromLegacy : Option String
  toLegacy : Option String
deriving DecidableEq, Repr

/-- Citizenship-change record (interface CitizenshipChange). -/
structure CitizenshipChange where
  _id : String
  user : String
  country : String
  createdAt : String
  timestamp : Option String
  data : Option ChangeData
deriving DecidableEq, Repr

instance : Inhabited CitizenshipChange :=
  ⟨{ _id := "", user := "", country := "", createdAt := "", timestamp := none,
     data := none }⟩

/-- Page of citizenship changes (interface ActionLogResponse). -/
structure ActionLogResponse where
  items : List CitizenshipChange
  nextCursor : Option String
deriving DecidableEq, Repr

/-- Errors observable from getCitizenshipChanges: the locally thrown
missing-credential Error, or an error propagated from the HTTP layer. -/
inductive ApiError where
  | authRequired : ApiError
  | network : String → ApiError
deriving DecidableEq, Repr

/-- getCitizenshipChanges from src/services/api.ts, lines 118-139.  The
authToken parameter is the current value of the private field; net is the
response the HTTP layer would deliver; the second component counts the HTTP
requests performed. -/
def getCitizenshipChanges (authToken userId cursor : String)
    (net : Except String ActionLogResponse) :
    Except ApiError ActionLogResponse × Nat :=
  if authToken = "" then (.error .authRequired, 0)
  else
    match net with
    | .ok r => (.ok r, 1)
    | .error e => (.error (.network e), 1)

/-- getUserLite from src/services/api.ts, lines 99-116: the active flag is
derived from dates.lastConnectionAt by comparing against now minus ten days
(864000000 ms); a falsy or unparseable timestamp yields active = false.  The
parameter now is the clock value at fetch time. -/
def getUserLite (now : Int) (userData : UserData) : UserData :=
  match userData.lastConnectionAt with
  | some s =>
    if s = "" then { userData with active := false }
    else
      match parseDate s with
      | some t => { userData with active := decide (now - 864000000 ≤ t) }
      | none => { userData with active := false }
  | none => { userData with active := false }

/-- The country cache, a JavaScript Map used only through get, set and has. -/
def Cache : Type := String → Option Country

/-- Map.prototype.get. -/
def cacheGet (st : Cache) (k : String) : Option Country := st k

/-- Map.prototype.set. -/
def cacheSet (st : Cache) (k : String) (v : Country) : Cache :=
  fun k' => if k' = k then some v else st k'

/-- getCountryFromCache from src/services/api.ts, lines 60-62. -/
def getCountryFromCache (st : Cache) (countryId : String) : Option Country :=
  cacheGet st countryId

/-- The flag-URL augmentation applied by the client when a country code is
truthy (src/services/api.ts, lines 75-77 and 148-151). -/
def augment (c : Country) : Country :=
  match c.code with
  | some code =>
    if code = "" then c
    else
      let url := "https://flagcdn.com/w40/" ++ code.toLower ++ ".png"
      { c with flagUrl := some url }
  | none => c

/-- getCountryById from src/services/api.ts, lines 64-85: returns the cached
entry if present (no request); otherwise fetches, augments, stores and
returns the country, or logs and returns null on failure.  The result is
(returned value, cache afterwards, number of requests performed). -/
def getCountryById (st : Cache) (net : Except String Country)
    (countryId : String) : Option Country × Cache × Nat :=
  match cacheGet st countryId with
  | some c => (some c, st, 0)
  | none =>
    match net with
    | .ok raw =>
      let c := augment raw
      (some c, cacheSet st countryId c, 1)
    | .error _ => (none, st, 1)

/-- getAllCountries from src/services/api.ts, lines 141-160: fetches the
whole list, augments each record and stores every one in the cache with
Map.set; on failure returns the empty list leaving the cache unchanged. -/
def getAllCountries (st : Cache) (net : Except String (List Country)) :
    List Country × Cache :=
  match net with
  | .error _ => ([], st)
  | .ok cs =>
    let cs' := cs.map augment
    (cs', cs'.foldl (fun acc c => cacheSet acc c._id c) st)

/-- C1: with no token set (the field holds the empty string, its initial
value), getCitizenshipChanges fails at once with the locally thrown
authorization error, performs zero HTTP requests whatever the network would
have answered, and that error is a different constructor from every
network-level error. -/
theorem getCitizenshipChanges_auth_guard (authToken userId cursor : String)
    (net : Except String ActionLogResponse) (h : authToken = "") :
    getCitizenshipChanges authToken userId cursor net
        = (.error .authRequired, 0)
      ∧ ∀ m : String, (ApiError.authRequired ≠ ApiError.network m) := by
  subst h
  refine ⟨rfl, ?_⟩
  intro m hcontra
  cases hcontra

/-- Witness for C1: a concrete call with the empty token and a network that
would have succeeded still yields the authorization error and no request. -/
theorem getCitizenshipChanges_auth_guard_witness :
    getCitizenshipChanges "" "user1" ""
        (.ok { items := [], nextCursor := none })
        = (.error .authRequired, 0)
      ∧ ∀ m : String, (ApiError.authRequired ≠ ApiError.network m) :=
  getCitizenshipChanges_auth_guard "" "user1" ""
    (.ok { items := [], nextCursor := none }) rfl

/-- C2: the derived active flag is true exactly when the record carries a
last-connection timestamp that parses and lies at or after now minus ten
days; the boundary is inclusive and a missing timestamp gives false. -/
theorem getUserLite_active_iff (now : Int) (u : UserData) :
    (getUserLite now u).active = true
      ↔ ∃ s t, u.lastConnectionAt = some s ∧ parseDate s = some t
          ∧ now - 864000000 ≤ t := by
  unfold getUserLite
  cases hlc : u.lastConnectionAt with
  | none =>
    simp [hlc]
  | some s =>
    by_cases hs : s = ""
    · subst hs
      simp [parseDate]
    · simp only [if_neg hs]
      cases hp : parseDate s with
      | none => simp [hp]
      | some t =>
        simp only [hp, decide_eq_true_eq]
        constructor
        · intro h
          exact ⟨s, t, rfl, hp, h⟩
        · rintro ⟨s', t', hs', hp', hle⟩
          cases hs'
          rw [hp] at hp'
          cases hp'
          exact hle

lemma cacheGet_cacheSet (st : Cache) (k k' : String) (v : Country) :
    cacheGet (cacheSet st k v) k' = if k' = k then some v else cacheGet st k' := by
  simp [cacheGet, cacheSet]

lemma cacheGet_foldl_cacheSet_not_mem (cs : List Country) (st : Cache)
    (k : String) (h : k ∉ cs.map (·._id)) :
    cacheGet (cs.foldl (fun acc c => cacheSet acc c._id c) st) k
      = cacheGet st k := by
  induction cs generalizing st with
  | nil => rfl
  | cons c cs ih =>
    simp only [List.map_cons, List.mem_cons, not_or] at h
    simp only [List.foldl_cons]
    rw [ih _ h.2, cacheGet_cacheSet, if_neg h.1]

lemma cacheGet_foldl_cacheSet_isSome (cs : List Country) (st : Cache)
    (k : String) (h : (cacheGet st k).isSome) :
    (cacheGet (cs.foldl (fun acc c => cacheSet acc c._id c) st) k).isSome := by
  induction cs generalizing st with
  | nil => exact h
  | cons c cs ih =>
    simp only [List.foldl_cons]
    apply ih
    rw [cacheGet_cacheSet]
    split
    · rfl
    · exact h

/-- C8: getCountryById returns a cached entry with zero requests; on a miss
with a successful fetch it returns the augmented record, stores it (so a
later lookup of the same identifier finds it) and performs one request; on a
miss with a failed fetch it returns none leaving the cache unchanged; and
augmentation derives the flag URL from a truthy country code. -/
theorem getCountryById_spec (st : Cache) (net : Except String Country)
    (cid : String) :
    (∀ c, cacheGet st cid = some c → getCountryById st net cid = (some c, st, 0))
      ∧ (cacheGet st cid = none → ∀ raw, net = .ok raw →
          getCountryById st net cid
              = (some (augment raw), cacheSet st cid (augment raw), 1)
            ∧ cacheGet (cacheSet st cid (augment raw)) cid = some (augment raw))
      ∧ (cacheGet st cid = none → ∀ e, net = .error e →
          getCountryById st net cid = (none, st, 1))
      ∧ (∀ c code, c.code = some code → code ≠ "" →
          (augment c).flagUrl
            = some ("https://flagcdn.com/w40/" ++ code.toLower ++ ".png")) := by
  refine ⟨?_, ?_, ?_, ?_⟩
  · intro c hc
    simp [getCountryById, hc]
  · intro hmiss raw hnet
    subst hnet
    constructor
    · simp [getCountryById, hmiss]
    · rw [cacheGet_cacheSet, if_pos rfl]
  · intro hmiss e hnet
    subst hnet
    simp [getCountryById, hmiss]
  · intro c code hcode hne
    simp [augment, hcode, hne]

/-- Concrete country record used by the C8 witness. -/
def atlantisCountry : Country :=
  { _id := "c1", name := "Atlantis", code := none, flagUrl := none }

/-- A cache already holding atlantisCountry under identifier c1. -/
def cacheWithAtlantis : Cache :=
  fun k => if k = "c1" then some atlantisCountry else none

/-- Witness for C8: on an initially empty cache a fetch of country c1
returns and stores the augmented record with one request; a call on a cache
already holding c1 answers from the cache with zero requests even though
the network would fail; and a record with code de receives the derived
flag URL. -/
theorem getCountryById_spec_witness :
    (getCountryById (fun _ => none) (.ok atlantisCountry) "c1"
        = (some (augment atlantisCountry),
           cacheSet (fun _ => none) "c1" (augment atlantisCountry), 1))
      ∧ (getCountryById cacheWithAtlantis (.error "network down") "c1"
          = (some atlantisCountry, cacheWithAtlantis, 0))
      ∧ ((augment { _id := "c2", name := "Germany", code := some "de",
                    flagUrl := none }).flagUrl
          = some ("https://flagcdn.com/w40/" ++ "de".toLower ++ ".png")) := by
  refine ⟨?_, ?_, ?_⟩
  · exact ((getCountryById_spec (fun _ => none)
      (.ok atlantisCountry) "c1").2.1 rfl atlantisCountry rfl).1
  · exact (getCountryById_spec cacheWithAtlantis
      (.error "network down") "c1").1 atlantisCountry (by decide)
  · exact (getCountryById_spec (fun _ => none) (.error "") "c").2.2.2
      { _id := "c2", name := "Germany", code := some "de", flagUrl := none }
      "de" rfl (by decide)

/-- C9 counterexample: a country already cached under identifier c1 has its
attributes replaced when getAllCountries fetches a record with the same
identifier but a different name: Map.set overwrites the existing entry. -/
theorem getAllCountries_overwrites :
    cacheGet
        ((getAllCountries
          (fun k => if k = "c1"
            then some { _id := "c1", name := "Alpha", code := none,
                        flagUrl := none }
            else none)
          (.ok [{ _id := "c1", name := "Beta", code := none,
                  flagUrl := none }])).2) "c1"
      = some { _id := "c1", name := "Beta", code := none, flagUrl := none }
    ∧ ({ _id := "c1", name := "Beta", code := none, flagUrl := none } : Country)
        ≠ { _id := "c1", name := "Alpha", code := none, flagUrl := none } := by
  constructor
  · rfl
  · decide

/-- C9 amended: the cache never evicts — getCountryById preserves every
existing entry unchanged, getCountryFromCache is a pure read, and
getAllCountries keeps every existing key populated and leaves entries whose
identifier is not among the fetched records unchanged; getAllCountries does,
however, overwrite the entry of every country it fetches. -/
theorem cache_append_only (st : Cache) (net1 : Except String Country)
    (net2 : Except String (List Country)) (cid : String) :
    (∀ k v, cacheGet st k = some v →
        cacheGet ((getCountryById st net1 cid).2.1) k = some v)
      ∧ (∀ k, getCountryFromCache st k = cacheGet st k)
      ∧ (∀ k, (cacheGet st k).isSome →
          (cacheGet ((getAllCountries st net2).2) k).isSome)
      ∧ (∀ k v cs, net2 = .ok cs → k ∉ (cs.map augment).map (·._id) →
          cacheGet st k = some v →
          cacheGet ((getAllCountries st net2).2) k = some v) := by
  refine ⟨?_, fun _ => rfl, ?_, ?_⟩
  · intro k v hk
    unfold getCountryById
    cases hcid : cacheGet st cid with
    | some c => exact hk
    | none =>
      cases net1 with
      | error e => exact hk
      | ok raw =>
        simp only []
        rw [cacheGet_cacheSet]
        split
        · rename_i hkc
          subst hkc
          rw [hcid] at hk
          cases hk
        · exact hk
  · intro k hk
    cases net2 with
    | error e => exact hk
    | ok cs => exact cacheGet_foldl_cacheSet_isSome _ _ _ hk
  · intro k v cs hnet hmem hk
    subst hnet
    unfold getAllCountries
    simp only []
    rw [cacheGet_foldl_cacheSet_not_mem _ _ _ hmem]
    exact hk

/-- Witness for C9 amended: with a cache holding c1 and a fetch returning a
record for c2 only, the c1 entry survives getCountryById for c2, stays
populated through getAllCountries, and keeps its exact attributes since c1
is not among the fetched identifiers. -/
theorem cache_append_only_witness :
    (cacheGet
        ((getCountryById
          (fun k => if k = "c1"
            then some { _id := "c1", name := "Alpha", code := none,
                        flagUrl := none }
            else none)
          (.ok { _id := "c2", name := "Beta", code := none, flagUrl := none })
          "c2").2.1) "c1"
      = some { _id := "c1", name := "Alpha", code := none, flagUrl := none })
    ∧ (cacheGet
        ((getAllCountries
          (fun k => if k = "c1"
            then some { _id := "c1", name := "Alpha", code := none,
                        flagUrl := none }
            else none)
          (.ok [{ _id := "c2", name := "Beta", code := none,
                  flagUrl := none }])).2) "c1"
      = some { _id := "c1", name := "Alpha", code := none, flagUrl := none }) := by
  constructor
  · exact (cache_append_only _ _ (.error "") "c2").1 "c1" _ (by decide)
  · exact (cache_append_only _ (.error "") _ "c2").2.2.2 "c1" _ _ rfl
      (by decide) (by decide)

/-- Per-player record accumulated by the tracker view
(interface PlayerData in CitizenshipTracker.vue). -/
structure PlayerData where
  user : UserData
  citizenshipChanges : List CitizenshipChange
  loading : Bool
  error : Option String
deriving DecidableEq, Repr

/-- Row shape produced by flattening (interface FlattenedChange in
CitizenshipTracker.vue). -/
structure FlattenedChange where
  username : String
  userId : String
  change : CitizenshipChange
  fromCountryId : Option String
  toCountryId : Option String
  date : Option Int
deriving DecidableEq, Repr

instance : Inhabited FlattenedChange :=
  ⟨{ username := "", userId := "", change := default, fromCountryId := none,
     toCountryId := none, date := none }⟩

/-- The row built for one change inside allChanges
(CitizenshipTracker.vue, lines 46-57). -/
def flattenOne (player : PlayerData) (change : CitizenshipChange) :
    FlattenedChange :=
  { username := player.user.username
    userId := player.user._id
    change := change
    fromCountryId := jsOrOpt (change.data.bind (·.fromCountryId))
        (change.data.bind (·.fromLegacy))
    toCountryId := jsOrOpt (change.data.bind (·.toCountryId))
        (change.data.bind (·.toLegacy))
    date := parseDate (jsOrStr change.createdAt (change.timestamp.getD "")) }

/-- The flattening stage of allChanges (CitizenshipTracker.vue, lines
43-57): nested forEach loops pushing one row per change. -/
def flattenChanges (players : List PlayerData) : List FlattenedChange :=
  players.foldl (fun acc p => acc ++ p.citizenshipChanges.map (flattenOne p)) []

/-- Modelled from the claim wording of C3, which reads the date as falling
back through the timestamp field, then the creation time, then the empty
string; used only to compare against what the code computes. -/
def claimOrderRow (player : PlayerData) (change : CitizenshipChange) :
    FlattenedChange :=
  { flattenOne player change with
    date := parseDate (jsOrStr (change.timestamp.getD "") change.createdAt) }

/-- Row shape described by the amended C3: source and destination country
identifiers resolved from the new field names with fallback to the legacy
ones, and a date parsed by falling back through the creation time, then the
timestamp field, then the empty string. -/
def amendedRow (player : PlayerData) (change : CitizenshipChange) :
    FlattenedChange :=
  { username := player.user.username
    userId := player.user._id
    change := change
    fromCountryId := jsOrOpt (change.data.bind (·.fromCountryId))
        (change.data.bind (·.fromLegacy))
    toCountryId := jsOrOpt (change.data.bind (·.toCountryId))
        (change.data.bind (·.toLegacy))
    date := parseDate
        (jsOrStr change.createdAt (jsOrStr (change.timestamp.getD "") "")) }

/-- formatDate from CitizenshipTracker.vue, lines 126-135: an invalid date
renders as the sentinel string; the locale rendering of a valid date is
abstracted as its numeric timestamp. -/
def formatDate : Option Int → String
  | none => "Invalid date"
  | some t => toString t

lemma jsOrStr_empty_right (s : String) : jsOrStr s "" = s := by
  unfold jsOrStr
  split
  · rename_i h
    exact h.symm
  · rfl

lemma flattenChanges_go (players : List PlayerData)
    (acc : List FlattenedChange) :
    players.foldl (fun acc p => acc ++ p.citizenshipChanges.map (flattenOne p))
        acc
      = acc ++ players.flatMap (fun p => p.citizenshipChanges.map (flattenOne p)) := by
  induction players generalizing acc with
  | nil => simp
  | cons p ps ih =>
    simp only [List.foldl_cons, List.flatMap_cons, ih, List.append_assoc]

/-- A concrete player whose single change carries both a creation time and
a timestamp that parse to different instants; used to refute C3 as stated. -/
def twoDatePlayer : PlayerData :=
  { user := { _id := "u1", username := "alice", lastConnectionAt := none,
              active := true }
    citizenshipChanges :=
      [{ _id := "ch1", user := "u1", country := "c1", createdAt := "100",
         timestamp := some "200", data := none }]
    loading := false
    error := none }

/-- C3 counterexample: the code parses the creation time first
(createdAt || timestamp || empty), so on a change carrying createdAt 100
and timestamp 200 the flattened row is dated 100, not 200 as the claimed
timestamp-first fallback would give. -/
theorem flatten_date_order_counterexample :
    flattenChanges [twoDatePlayer]
        ≠ [twoDatePlayer].flatMap
            (fun p => p.citizenshipChanges.map (claimOrderRow p))
      ∧ (flattenChanges [twoDatePlayer]).map (fun r => r.date) = [some 100]
      ∧ ([twoDatePlayer].flatMap
            (fun p => p.citizenshipChanges.map (claimOrderRow p))).map
            (fun r => r.date) = [some 200] := by
  refine ⟨by decide, by decide, by decide⟩

/-- C3 amended: flattening yields exactly one row per change, in order,
each row resolving the source and destination identifiers from the new
field names with fallback to the legacy names and parsing a date obtained
by falling back through the creation time, then the timestamp field, then
the empty string; a row whose date fails to parse renders as the sentinel
Invalid date string. -/
theorem flatten_spec (players : List PlayerData) :
    flattenChanges players
        = players.flatMap (fun p => p.citizenshipChanges.map (amendedRow p))
      ∧ (flattenChanges players).length
          = (players.map (fun p => p.citizenshipChanges.length)).sum
      ∧ formatDate none = "Invalid date" := by
  have hrow : ∀ p c, flattenOne p c = amendedRow p c := by
    intro p c
    unfold flattenOne amendedRow
    rw [jsOrStr_empty_right]
  have hmain : flattenChanges players
      = players.flatMap (fun p => p.citizenshipChanges.map (amendedRow p)) := by
    unfold flattenChanges
    rw [flattenChanges_go, List.nil_append]
    congr 1
    funext p
    congr 1
    funext c
    exact hrow p c
  refine ⟨hmain, ?_, rfl⟩
  rw [hmain]
  clear hmain hrow
  induction players with
  | nil => rfl
  | cons p ps ih =>
    simp only [List.flatMap_cons, List.length_append, List.length_map,
      List.map_cons, List.sum_cons, ih]

/-- The four filter controls of the tracker view; an unset text filter is
the empty string, an unset date input is none.  A set date input holds a
calendar day, modelled as the number of whole days since the epoch in local
time. -/
structure Filters where
  sourceCountryId : String
  destinationCountryId : String
  startDate : Option Nat
  endDate : Option Nat

/-- setHours(0, 0, 0, 0) on the parsed start day: local midnight. -/
def startOfDay (d : Nat) : Int := 86400000 * (d : Int)

/-- setHours(23, 59, 59, 999) on the parsed end day. -/
def endOfDay (d : Nat) : Int := 86400000 * (d : Int) + 86399999

/-- filteredChanges from CitizenshipTracker.vue, lines 67-91: the four
filters applied one after another, each skipped when unset; a comparison
against an invalid date is false, as in JavaScript. -/
def filteredChanges (f : Filters) (l : List FlattenedChange) :
    List FlattenedChange :=
  let l1 := if f.sourceCountryId = "" then l
    else l.filter (fun c => decide (c.fromCountryId = some f.sourceCountryId))
  let l2 := if f.destinationCountryId = "" then l1
    else l1.filter (fun c => decide (c.toCountryId = some f.destinationCountryId))
  let l3 := match f.startDate with
    | none => l2
    | some d => l2.filter (fun c =>
        match c.date with
        | some t => decide (startOfDay d ≤ t)
        | none => false)
  let l4 := match f.endDate with
    | none => l3
    | some d => l3.filter (fun c =>
        match c.date with
        | some t => decide (t ≤ endOfDay d)
        | none => false)
  l4

/-- Conjunction of the four filter conditions as the claim states them: a
set source or destination filter requires exact identifier equality, a set
start (end) date admits rows dated at or after (before) that day bounds,
and an unset filter excludes no row. -/
def matchesFilters (f : Filters) (c : FlattenedChange) : Bool :=
  (if f.sourceCountryId = "" then true
    else decide (c.fromCountryId = some f.sourceCountryId))
  && (if f.destinationCountryId = "" then true
    else decide (c.toCountryId = some f.destinationCountryId))
  && (match f.startDate with
    | none => true
    | some d =>
      match c.date with
      | some t => decide (startOfDay d ≤ t)
      | none => false)
  && (match f.endDate with
    | none => true
    | some d =>
      match c.date with
      | some t => decide (t ≤ endOfDay d)
      | none => false)

/-- A row dated at a given instant, with every other field blank; used to
express the day-boundary examples. -/
def rowAt (t : Int) : FlattenedChange :=
  { username := "", userId := "", change := default, fromCountryId := none,
    toCountryId := none, date := some t }

/-- C4: sequentially applying the set filters equals filtering by the
conjunction of all set conditions; with every filter unset the row list is
returned unchanged; and for a range whose start and end name the same day
d, a row at 23:00:00 of day d passes while a row at 00:00:01 of day d+1
does not. -/
theorem filteredChanges_spec (f : Filters) (l : List FlattenedChange) :
    filteredChanges f l = l.filter (matchesFilters f)
      ∧ filteredChanges
          { sourceCountryId := "", destinationCountryId := "",
            startDate := none, endDate := none } l = l
      ∧ (∀ d : Nat,
          matchesFilters
            { sourceCountryId := "", destinationCountryId := "",
              startDate := some d, endDate := some d }
            (rowAt (86400000 * (d : Int) + 82800000)) = true)
      ∧ (∀ d : Nat,
          matchesFilters
            { sourceCountryId := "", destinationCountryId := "",
              startDate := some d, endDate := some d }
            (rowAt (86400000 * ((d : Int) + 1) + 1000)) = false) := by
  refine ⟨?_, rfl, ?_, ?_⟩
  · unfold filteredChanges matchesFilters
    by_cases hs : f.sourceCountryId = "" <;>
      by_cases hd : f.destinationCountryId = "" <;>
      rcases hst : f.startDate with _ | ds <;>
      rcases hen : f.endDate with _ | de <;>
      simp only [hs, hd, hst, hen, if_pos, if_neg, not_false_iff, if_true,
        List.filter_filter, Bool.true_and, Bool.and_true] <;>
      first
        | rfl
        | simp
        | (apply List.filter_congr
           intro c _
           cases c.date <;>
             simp [Bool.and_comm, Bool.and_left_comm, Bool.and_assoc])
  · intro d
    simp only [matchesFilters, rowAt, startOfDay, endOfDay, if_pos,
      Bool.true_and, Bool.and_eq_true, decide_eq_true_eq]
    constructor <;> omega
  · intro d
    simp only [matchesFilters, rowAt, startOfDay, endOfDay, if_pos,
      Bool.true_and, Bool.and_eq_false_iff, decide_eq_false_iff_not]
    right
    omega

/-- Sort direction held in sortOrder (CitizenshipTracker.vue, line 32). -/
inductive SortOrder where
  | asc : SortOrder
  | desc : SortOrder
deriving DecidableEq, Repr

/-- toggleSort from CitizenshipTracker.vue, lines 122-124. -/
def toggleSort : SortOrder → SortOrder
  | .desc => .asc
  | .asc => .desc

/-- The comparator passed to Array.prototype.sort in allChanges
(CitizenshipTracker.vue, lines 59-64): descending compares
b.date.getTime() - a.date.getTime(), ascending the opposite; a comparison
involving an Invalid Date (getTime NaN) produces NaN, which the ECMAScript
SortCompare operation treats as 0. -/
def jsDateCompare (o : SortOrder) (a b : FlattenedChange) : Int :=
  match a.date, b.date with
  | some x, some y =>
    match o with
    | .desc => y - x
    | .asc => x - y
  | _, _ => 0

/-- The ordering induced by the comparator: a sorts no later than b when
the comparator does not ask to swap them. -/
def sortLe (o : SortOrder) (a b : FlattenedChange) : Prop :=
  jsDateCompare o a b ≤ 0

instance sortLe.instDecidableRel (o : SortOrder) : DecidableRel (sortLe o) :=
  fun a b => inferInstanceAs (Decidable (jsDateCompare o a b ≤ 0))

/-- The sort stage of allChanges.  Array.prototype.sort is required to be
stable; the model uses insertion sort, which agrees with every stable sort
whenever the comparator is consistent (in particular on rows whose dates
all parse). -/
def sortChanges (o : SortOrder) (l : List FlattenedChange) :
    List FlattenedChange :=
  List.insertionSort (sortLe o) l

/-- allChanges (CitizenshipTracker.vue, lines 43-65): flattening followed
by the toggle-controlled sort. -/
def allChanges (o : SortOrder) (players : List PlayerData) :
    List FlattenedChange :=
  sortChanges o (flattenChanges players)

lemma filter_orderedInsert_pos {α : Type} (r : α → α → Prop) [DecidableRel r]
    (p : α → Bool) (x : α) (m : List α) (hx : p x = true)
    (hall : ∀ y ∈ m, p y = true → r x y) :
    (List.orderedInsert r x m).filter p = x :: m.filter p := by
  induction m with
  | nil => simp [List.orderedInsert, hx]
  | cons b m ih =>
    by_cases hrb : r x b
    · simp [List.orderedInsert, hrb, hx]
    · have hpb : p b = false := by
        cases hb : p b with
        | false => rfl
        | true => exact absurd (hall b (by simp) hb) hrb
      simp only [List.orderedInsert, if_neg hrb, List.filter_cons, hpb]
      simp only [Bool.false_eq_true, if_false]
      exact ih (fun y hy hpy => hall y (by simp [hy]) hpy)

lemma filter_orderedInsert_neg {α : Type} (r : α → α → Prop) [DecidableRel r]
    (p : α → Bool) (x : α) (m : List α) (hx : p x = false) :
    (List.orderedInsert r x m).filter p = m.filter p := by
  induction m with
  | nil => simp [List.orderedInsert, hx]
  | cons b m ih =>
    by_cases hrb : r x b
    · simp [List.orderedInsert, hrb, hx]
    · simp only [List.orderedInsert, if_neg hrb, List.filter_cons]
      rw [ih]

lemma filter_insertionSort {α : Type} (r : α → α → Prop) [DecidableRel r]
    (p : α → Bool) (hp : ∀ a b, p a = true → p b = true → r a b)
    (l : List α) :
    (List.insertionSort r l).filter p = l.filter p := by
  induction l with
  | nil => rfl
  | cons x xs ih =>
    simp only [List.insertionSort, List.filter_cons]
    cases hx : p x with
    | true =>
      rw [filter_orderedInsert_pos r p x _ hx
        (fun y _ hpy => hp x y hx hpy), ih]
      simp
    | false =>
      rw [filter_orderedInsert_neg r p x _ hx, ih]
      simp

lemma sortLe_total_valid (o : SortOrder) (a b : FlattenedChange)
    (ha : a.date.isSome) (hb : b.date.isSome) :
    sortLe o a b ∨ sortLe o b a := by
  obtain ⟨x, hx⟩ := Option.isSome_iff_exists.mp ha
  obtain ⟨y, hy⟩ := Option.isSome_iff_exists.mp hb
  unfold sortLe jsDateCompare
  rw [hx, hy]
  cases o <;> simp <;> omega

lemma sortLe_trans_valid (o : SortOrder) (a b c : FlattenedChange)
    (ha : a.date.isSome) (hb : b.date.isSome) (hc : c.date.isSome)
    (hab : sortLe o a b) (hbc : sortLe o b c) : sortLe o a c := by
  obtain ⟨x, hx⟩ := Option.isSome_iff_exists.mp ha
  obtain ⟨y, hy⟩ := Option.isSome_iff_exists.mp hb
  obtain ⟨z, hz⟩ := Option.isSome_iff_exists.mp hc
  unfold sortLe jsDateCompare at hab hbc ⊢
  rw [hx, hy] at hab
  rw [hy, hz] at hbc
  rw [hx, hz]
  cases o <;> simp_all <;> omega

lemma sorted_orderedInsert_valid (o : SortOrder) (a : FlattenedChange)
    (m : List FlattenedChange) (ha : a.date.isSome)
    (hm : ∀ x ∈ m, x.date.isSome)
    (hs : List.Pairwise (sortLe o) m) :
    List.Pairwise (sortLe o) (List.orderedInsert (sortLe o) a m) := by
  induction m with
  | nil => simp
  | cons b m ih =>
    have hb : b.date.isSome := hm b (by simp)
    rcases List.pairwise_cons.mp hs with ⟨hbm, hm'⟩
    by_cases hab : sortLe o a b
    · rw [List.orderedInsert, if_pos hab]
      refine List.pairwise_cons.mpr ⟨?_, hs⟩
      intro y hy
      rcases List.mem_cons.mp hy with hyb | hym
      · subst hyb; exact hab
      · exact sortLe_trans_valid o a b y ha hb (hm y (by simp [hym])) hab
          (hbm y hym)
    · rw [List.orderedInsert, if_neg hab]
      refine List.pairwise_cons.mpr ⟨?_, ?_⟩
      · intro y hy
        rcases (List.mem_orderedInsert (sortLe o)).mp hy with hya | hym
        · rcases sortLe_total_valid o a b ha hb with h | h
          · exact absurd h hab
          · rw [hya]
            exact h
        · exact hbm y hym
      · exact ih (fun x hx => hm x (by simp [hx])) hm'

lemma sorted_sortChanges_valid (o : SortOrder) (l : List FlattenedChange)
    (hv : ∀ r ∈ l, r.date.isSome) :
    List.Pairwise (sortLe o) (sortChanges o l) := by
  induction l with
  | nil => exact List.Pairwise.nil
  | cons x xs ih =>
    have hx : x.date.isSome := hv x (by simp)
    have hxs : ∀ r ∈ xs, r.date.isSome := fun r hr => hv r (by simp [hr])
    have hmem : ∀ r ∈ List.insertionSort (sortLe o) xs, r.date.isSome := by
      intro r hr
      exact hxs r ((List.perm_insertionSort (sortLe o) xs).mem_iff.mp hr)
    exact sorted_orderedInsert_valid o x _ hx hmem (ih hxs)

lemma map_date_of_valid (l : List FlattenedChange)
    (hv : ∀ r ∈ l, r.date.isSome) :
    l.map (fun r => r.date) = (l.map (fun r => r.date.getD 0)).map some := by
  rw [List.map_map]
  apply List.map_congr_left
  intro r hr
  cases hd : r.date with
  | none => exact absurd (hv r hr) (by simp [hd])
  | some t => simp [hd]

lemma sortLe_imp_key_le (o : SortOrder) :
    ∀ a b : FlattenedChange, a.date.isSome → b.date.isSome → sortLe o a b →
      (match o with
        | .asc => a.date.getD 0 ≤ b.date.getD 0
        | .desc => b.date.getD 0 ≤ a.date.getD 0) := by
  intro a b ha hb hle
  obtain ⟨x, hx⟩ := Option.isSome_iff_exists.mp ha
  obtain ⟨y, hy⟩ := Option.isSome_iff_exists.mp hb
  unfold sortLe jsDateCompare at hle
  rw [hx] at hle ⊢
  rw [hy] at hle ⊢
  cases o <;> simp_all <;> omega

lemma sort_dates_reverse (l : List FlattenedChange)
    (hv : ∀ r ∈ l, r.date.isSome) :
    (sortChanges .desc l).map (fun r => r.date)
      = ((sortChanges .asc l).map (fun r => r.date)).reverse := by
  have hvA : ∀ r ∈ sortChanges .asc l, r.date.isSome := fun r hr =>
    hv r ((List.perm_insertionSort (sortLe .asc) l).mem_iff.mp hr)
  have hvD : ∀ r ∈ sortChanges .desc l, r.date.isSome := fun r hr =>
    hv r ((List.perm_insertionSort (sortLe .desc) l).mem_iff.mp hr)
  have hA : List.Pairwise (sortLe .asc) (sortChanges .asc l) :=
    sorted_sortChanges_valid .asc l hv
  have hD : List.Pairwise (sortLe .desc) (sortChanges .desc l) :=
    sorted_sortChanges_valid .desc l hv
  have hkA : List.Sorted (· ≤ ·)
      ((sortChanges .asc l).map (fun r => r.date.getD 0)) := by
    rw [List.Sorted, List.pairwise_map]
    exact (hA.imp_of_mem (fun {a b} hma hmb hle =>
      sortLe_imp_key_le .asc a b (hvA a hma) (hvA b hmb) hle))
  have hkD : List.Sorted (· ≤ ·)
      (((sortChanges .desc l).map (fun r => r.date.getD 0)).reverse) := by
    rw [List.Sorted, List.pairwise_reverse, List.pairwise_map]
    exact (hD.imp_of_mem (fun {a b} hma hmb hle =>
      sortLe_imp_key_le .desc a b (hvD a hma) (hvD b hmb) hle))
  have hperm : ((sortChanges .asc l).map (fun r => r.date.getD 0)).Perm
      (((sortChanges .desc l).map (fun r => r.date.getD 0)).reverse) := by
    refine ((List.perm_insertionSort (sortLe .asc) l).map _).trans ?_
    refine (((List.perm_insertionSort (sortLe .desc) l).map
      (fun r : FlattenedChange => r.date.getD 0)).symm).trans ?_
    exact (List.reverse_perm _).symm
  have hkeys : (sortChanges .asc l).map (fun r => r.date.getD 0)
      = (((sortChanges .desc l).map (fun r => r.date.getD 0)).reverse) :=
    List.eq_of_perm_of_sorted hperm hkA hkD
  rw [map_date_of_valid _ hvA, map_date_of_valid _ hvD, hkeys,
    List.map_reverse, List.reverse_reverse]

/-- C6 amended: on rows whose dates all parse, each sort direction permutes
the rows, toggling the direction reverses the sequence of dates, and rows
with equal dates keep their relative input order in both directions (the
tie conjunct holds for every row list).  With an unparseable date present
the comparator is inconsistent (such a row ties with every row) and the
reversal property fails, see the counterexample. -/
theorem sort_toggle_spec (o : SortOrder) (l : List FlattenedChange)
    (hv : ∀ r ∈ l, r.date.isSome) :
    (sortChanges o l).Perm l
      ∧ ((sortChanges (toggleSort o) l).map (fun r => r.date)
          = ((sortChanges o l).map (fun r => r.date)).reverse)
      ∧ (∀ d : Int,
          (sortChanges o l).filter (fun r => decide (r.date = some d))
            = l.filter (fun r => decide (r.date = some d))) := by
  refine ⟨List.perm_insertionSort _ l, ?_, ?_⟩
  · cases o with
    | asc => exact sort_dates_reverse l hv
    | desc =>
      have h := sort_dates_reverse l hv
      rw [h, List.reverse_reverse]
      rfl
  · intro d
    apply filter_insertionSort
    intro a b hpa hpb
    rw [decide_eq_true_eq] at hpa hpb
    unfold sortLe jsDateCompare
    rw [hpa, hpb]
    cases o <;> simp

/-- Three rows with parseable dates, one pair tied; used by the C6
witness. -/
def tiedRows : List FlattenedChange :=
  [{ username := "a", userId := "1", change := default, fromCountryId := none,
     toCountryId := none, date := some 5 },
   { username := "b", userId := "2", change := default, fromCountryId := none,
     toCountryId := none, date := some 5 },
   { username := "c", userId := "3", change := default, fromCountryId := none,
     toCountryId := none, date := some 3 }]

/-- Witness for C6 amended: on three concrete rows with parseable dates
(two of them tied) the sort permutes, toggling reverses the date sequence,
and tied rows keep their input order. -/
theorem sort_toggle_spec_witness :
    (∀ r ∈ tiedRows, r.date.isSome)
      ∧ ((sortChanges .asc tiedRows).Perm tiedRows
        ∧ ((sortChanges (toggleSort .asc) tiedRows).map (fun r => r.date)
            = ((sortChanges .asc tiedRows).map (fun r => r.date)).reverse)
        ∧ (∀ d : Int,
            (sortChanges .asc tiedRows).filter
                (fun r => decide (r.date = some d))
              = tiedRows.filter (fun r => decide (r.date = some d)))) :=
  ⟨by decide, sort_toggle_spec .asc tiedRows (by decide)⟩

/-- Three rows whose middle row has an unparseable date; it ties with every
row under the comparator, blocking any exchange across it. -/
def nanRows : List FlattenedChange :=
  [{ username := "a", userId := "1", change := default, fromCountryId := none,
     toCountryId := none, date := some 1 },
   { username := "b", userId := "2", change := default, fromCountryId := none,
     toCountryId := none, date := none },
   { username := "c", userId := "3", change := default, fromCountryId := none,
     toCountryId := none, date := some 0 }]

/-- C6 counterexample: with a row whose date fails to parse between two
rows with distinct parseable dates, both sort directions return the input
order unchanged, so toggling does not reverse the sequence — the two rows
dated 1 and 0 are unequal yet keep the same relative order in both
directions. -/
theorem sort_toggle_counterexample :
    ((sortChanges (toggleSort .asc) nanRows).map (fun r => r.date)
        ≠ ((sortChanges .asc nanRows).map (fun r => r.date)).reverse)
      ∧ (sortChanges .asc nanRows).map (fun r => r.date)
          = [some 1, none, some 0]
      ∧ (sortChanges .desc nanRows).map (fun r => r.date)
          = [some 1, none, some 0] := by
  refine ⟨by decide, by decide, by decide⟩

/-- One step of the grouping forEach (CitizenshipTracker.vue, lines
96-101): push the row onto its username group, creating the group on first
sight; a JavaScript Map iterates in insertion order, so fresh groups go to
the end. -/
def addToGroups (gs : List (String × List FlattenedChange))
    (r : FlattenedChange) : List (String × List FlattenedChange) :=
  if gs.any (fun g => decide (g.1 = r.username)) then
    gs.map (fun g => if g.1 = r.username then (g.1, g.2 ++ [r]) else g)
  else gs ++ [(r.username, [r])]

/-- The username Map built by groupedChanges, as its insertion-ordered
entry list. -/
def groupsOf (l : List FlattenedChange) :
    List (String × List FlattenedChange) :=
  l.foldl addToGroups []

/-- Group record displayed in overview mode (CitizenshipTracker.vue, lines
103-107): the userId is read off the first change of the group. -/
structure GroupEntry where
  username : String
  userId : String
  changes : List FlattenedChange
deriving DecidableEq, Repr

/-- groupedChanges from CitizenshipTracker.vue, lines 93-108. -/
def groupedChanges (l : List FlattenedChange) : List GroupEntry :=
  (groupsOf l).map (fun g =>
    { username := g.1, userId := g.2.headI.userId, changes := g.2 })

/-- First-appearance order of the distinct elements of a list, relative to
an already-seen set; spells out the group order the claim describes. -/
def firstSeenNew (seen : List String) : List String → List String
  | [] => []
  | u :: us =>
    if u ∈ seen then firstSeenNew seen us
    else u :: firstSeenNew (u :: seen) us

/-- First-appearance order of the distinct elements of a list. -/
def firstSeen (us : List String) : List String := firstSeenNew [] us

lemma firstSeenNew_cons (seen : List String) (u : String) (us : List String) :
    firstSeenNew seen (u :: us)
      = if u ∈ seen then firstSeenNew seen us
        else u :: firstSeenNew (u :: seen) us := rfl

lemma firstSeenNew_congr (s₁ s₂ : List String) (us : List String)
    (h : ∀ u, u ∈ s₁ ↔ u ∈ s₂) :
    firstSeenNew s₁ us = firstSeenNew s₂ us := by
  induction us generalizing s₁ s₂ with
  | nil => rfl
  | cons v us ih =>
    by_cases hv : v ∈ s₁
    · rw [firstSeenNew, if_pos hv, firstSeenNew, if_pos ((h v).mp hv)]
      exact ih s₁ s₂ h
    · rw [firstSeenNew, if_neg hv, firstSeenNew,
        if_neg (fun hc => hv ((h v).mpr hc))]
      congr 1
      refine ih (v :: s₁) (v :: s₂) ?_
      intro u
      simp [List.mem_cons, h u]

lemma mem_firstSeenNew (seen us : List String) (u : String) :
    u ∈ firstSeenNew seen us ↔ (u ∈ us ∧ u ∉ seen) := by
  induction us generalizing seen with
  | nil => simp [firstSeenNew]
  | cons v us ih =>
    by_cases hv : v ∈ seen
    · rw [firstSeenNew, if_pos hv, ih]
      by_cases huv : u = v
      · subst huv
        simp [hv]
      · simp [List.mem_cons, huv]
    · rw [firstSeenNew, if_neg hv]
      by_cases huv : u = v
      · subst huv
        simp [hv]
      · simp only [List.mem_cons, huv, false_or, ih, List.mem_cons, not_or]

lemma firstSeenNew_nodup (seen us : List String) :
    (firstSeenNew seen us).Nodup := by
  induction us generalizing seen with
  | nil => exact List.nodup_nil
  | cons v us ih =>
    by_cases hv : v ∈ seen
    · rw [firstSeenNew, if_pos hv]
      exact ih seen
    · rw [firstSeenNew, if_neg hv]
      refine List.nodup_cons.mpr ⟨?_, ih (v :: seen)⟩
      intro hc
      exact ((mem_firstSeenNew (v :: seen) us v).mp hc).2 (by simp)

lemma any_key_iff (gs : List (String × List FlattenedChange)) (u : String) :
    gs.any (fun g => decide (g.1 = u)) = true ↔ u ∈ gs.map Prod.fst := by
  rw [List.any_eq_true]
  constructor
  · rintro ⟨g, hg, hgu⟩
    rw [decide_eq_true_eq] at hgu
    exact hgu ▸ List.mem_map.mpr ⟨g, hg, rfl⟩
  · intro h
    rcases List.mem_map.mp h with ⟨g, hg, hgu⟩
    exact ⟨g, hg, by rw [decide_eq_true_eq, hgu]⟩

lemma foldl_addToGroups (l : List FlattenedChange)
    (gs : List (String × List FlattenedChange)) :
    l.foldl addToGroups gs
      = gs.map (fun g =>
          (g.1, g.2 ++ l.filter (fun r => decide (r.username = g.1))))
        ++ (firstSeenNew (gs.map Prod.fst)
              (l.map (fun r => r.username))).map
            (fun u => (u, l.filter (fun r => decide (r.username = u)))) := by
  induction l generalizing gs with
  | nil =>
    simp [firstSeenNew]
  | cons r l ih =>
    rw [List.foldl_cons]
    by_cases hin : r.username ∈ gs.map Prod.fst
    · have hany : gs.any (fun g => decide (g.1 = r.username)) = true :=
        (any_key_iff gs r.username).mpr hin
      have hstep : addToGroups gs r
          = gs.map (fun g =>
              if g.1 = r.username then (g.1, g.2 ++ [r]) else g) := by
        rw [addToGroups, if_pos hany]
      have hkeys : (gs.map (fun g =>
          if g.1 = r.username then (g.1, g.2 ++ [r]) else g)).map Prod.fst
          = gs.map Prod.fst := by
        rw [List.map_map]
        apply List.map_congr_left
        intro g _
        by_cases hg : g.1 = r.username <;> simp [hg]
      rw [hstep, ih, hkeys]
      congr 1
      · rw [List.map_map]
        apply List.map_congr_left
        intro g _
        by_cases hg : g.1 = r.username
        · simp [Function.comp, hg, List.filter_cons, List.append_assoc]
        · simp only [Function.comp, if_neg hg, List.filter_cons,
            decide_eq_true_eq]
          rw [if_neg (fun hc => hg hc.symm)]
      · rw [List.map_cons, firstSeenNew_cons, if_pos hin]
        apply List.map_congr_left
        intro u hu
        have huseen : u ∉ gs.map Prod.fst :=
          ((mem_firstSeenNew _ _ u).mp hu).2
        have hur : r.username ≠ u := fun hc => huseen (hc ▸ hin)
        rw [List.filter_cons, if_neg (by simp [hur])]
    · have hany : ¬ gs.any (fun g => decide (g.1 = r.username)) = true :=
        fun hc => hin ((any_key_iff gs r.username).mp hc)
      have hstep : addToGroups gs r = gs ++ [(r.username, [r])] := by
        rw [addToGroups, if_neg hany]
      rw [hstep, ih]
      simp only [List.map_append, List.map_cons, List.map_nil,
        firstSeenNew_cons, hin, if_false, List.nil_append, List.append_nil,
        List.cons_append, List.singleton_append, List.append_assoc]
      congr 1
      · apply List.map_congr_left
        intro g hg
        have hgkey : g.1 ∈ gs.map Prod.fst := List.mem_map.mpr ⟨g, hg, rfl⟩
        have hne : r.username ≠ g.1 := fun hc => hin (hc ▸ hgkey)
        rw [List.filter_cons, if_neg (by simp [hne])]
      · congr 1
        · rw [List.filter_cons, if_pos (by simp)]
        · rw [firstSeenNew_congr (gs.map Prod.fst ++ [r.username])
            (r.username :: gs.map Prod.fst) (l.map (fun x => x.username))
            (by intro u; simp [List.mem_append, List.mem_cons, or_comm])]
          apply List.map_congr_left
          intro u hu
          have huseen : u ∉ r.username :: gs.map Prod.fst :=
            ((mem_firstSeenNew _ _ u).mp hu).2
          have hur : r.username ≠ u := fun hc => huseen (by simp [hc])
          rw [List.filter_cons, if_neg (by simp [hur])]

lemma groupsOf_eq (l : List FlattenedChange) :
    groupsOf l
      = (firstSeen (l.map (fun r => r.username))).map
          (fun u => (u, l.filter (fun r => decide (r.username = u)))) := by
  unfold groupsOf firstSeen
  rw [foldl_addToGroups]
  simp

lemma sum_map_add (K : List String) (f g : String → Nat) :
    (K.map (fun u => f u + g u)).sum = (K.map f).sum + (K.map g).sum := by
  induction K with
  | nil => rfl
  | cons k K ih =>
    simp only [List.map_cons, List.sum_cons, ih]
    omega

lemma sum_indicator_not_mem (K : List String) (u : String) (h : u ∉ K) :
    (K.map (fun v => if u = v then 1 else 0)).sum = 0 := by
  induction K with
  | nil => rfl
  | cons k K ih =>
    have hne : u ≠ k := fun hc => h (by simp [hc])
    simp only [List.map_cons, List.sum_cons, if_neg hne]
    rw [ih (fun hc => h (by simp [hc]))]

lemma sum_indicator_nodup (K : List String) (u : String) (hnd : K.Nodup)
    (h : u ∈ K) :
    (K.map (fun v => if u = v then 1 else 0)).sum = 1 := by
  induction K with
  | nil => cases h
  | cons k K ih =>
    rcases List.nodup_cons.mp hnd with ⟨hk, hnd'⟩
    by_cases huk : u = k
    · subst huk
      simp only [List.map_cons, List.sum_cons, if_pos rfl]
      rw [sum_indicator_not_mem K u hk]
      simp
    · rcases List.mem_cons.mp h with hc | hc
      · exact absurd hc huk
      · simp only [List.map_cons, List.sum_cons, if_neg huk]
        rw [ih hnd' hc]

lemma sum_filter_lengths (K : List String) (l : List FlattenedChange)
    (hnd : K.Nodup) (hcov : ∀ r ∈ l, r.username ∈ K) :
    (K.map (fun u =>
        (l.filter (fun r => decide (r.username = u))).length)).sum
      = l.length := by
  induction l with
  | nil => simp
  | cons r l ih =>
    have hpt : (K.map (fun u =>
          ((r :: l).filter (fun x => decide (x.username = u))).length)).sum
        = (K.map (fun u => (if r.username = u then 1 else 0)
            + (l.filter (fun x => decide (x.username = u))).length)).sum := by
      congr 1
      apply List.map_congr_left
      intro u _
      rw [List.filter_cons]
      by_cases h : r.username = u <;> simp [h] <;> try omega
    rw [hpt, sum_map_add,
      sum_indicator_nodup K r.username hnd (hcov r (by simp)),
      ih (fun x hx => hcov x (by simp [hx])), List.length_cons]
    omega

/-- C5: grouping partitions the filtered rows by username with no drops or
duplicates — the group sizes sum to the input length and each group holds
exactly the input rows bearing its username, in input order (hence
nonempty, with the group userId read off the first such row) — and the
groups appear in first-appearance order of the distinct usernames. -/
theorem grouping_spec (l : List FlattenedChange) :
    ((groupedChanges l).map (fun g => g.changes.length)).sum = l.length
      ∧ (∀ g ∈ groupedChanges l,
          g.changes = l.filter (fun r => decide (r.username = g.username))
            ∧ g.changes ≠ []
            ∧ g.userId
                = ((l.filter (fun r =>
                    decide (r.username = g.username))).headI).userId)
      ∧ (groupedChanges l).map (fun g => g.username)
          = firstSeen (l.map (fun r => r.username)) := by
  have hg : groupedChanges l
      = (firstSeen (l.map (fun r => r.username))).map
          (fun u =>
            { username := u
              userId :=
                (l.filter (fun r => decide (r.username = u))).headI.userId
              changes := l.filter (fun r => decide (r.username = u)) }) := by
    unfold groupedChanges
    rw [groupsOf_eq, List.map_map]
    rfl
  refine ⟨?_, ?_, ?_⟩
  · rw [hg, List.map_map]
    exact sum_filter_lengths _ l (firstSeenNew_nodup [] _)
      (fun r hr => (mem_firstSeenNew [] _ r.username).mpr
        ⟨List.mem_map.mpr ⟨r, hr, rfl⟩, by simp⟩)
  · intro g hgmem
    rw [hg] at hgmem
    rcases List.mem_map.mp hgmem with ⟨u, hu, rfl⟩
    refine ⟨rfl, ?_, rfl⟩
    have hu' := (mem_firstSeenNew [] _ u).mp hu
    rcases List.mem_map.mp hu'.1 with ⟨r, hr, hru⟩
    intro hc
    have hmem : r ∈ l.filter (fun x => decide (x.username = u)) :=
      List.mem_filter.mpr ⟨hr, by simp [hru]⟩
    have hc' : l.filter (fun x => decide (x.username = u)) = [] := hc
    rw [hc'] at hmem
    exact absurd hmem (List.not_mem_nil r)
  · rw [hg, List.map_map]
    exact (List.map_congr_left (fun a _ => rfl)).trans (List.map_id _)

/-- Three concrete rows across two usernames; the example the design
document gives for grouping. -/
def demoRows : List FlattenedChange :=
  [{ username := "alice", userId := "u1", change := default,
     fromCountryId := none, toCountryId := none, date := some 1 },
   { username := "bob", userId := "u2", change := default,
     fromCountryId := none, toCountryId := none, date := some 2 },
   { username := "alice", userId := "u1", change := default,
     fromCountryId := none, toCountryId := none, date := some 3 }]

/-- The group the model builds for username alice over demoRows. -/
def demoAliceGroup : GroupEntry :=
  { username := "alice", userId := "u1"
    changes :=
      [{ username := "alice", userId := "u1", change := default,
         fromCountryId := none, toCountryId := none, date := some 1 },
       { username := "alice", userId := "u1", change := default,
         fromCountryId := none, toCountryId := none, date := some 3 }] }

/-- Witness for C5: grouping the three demo rows across two usernames
keeps all three rows, groups alice with both of her rows in input order
carrying her identifier, and lists the groups in first-appearance order. -/
theorem grouping_spec_witness :
    ((demoAliceGroup.changes
        = demoRows.filter (fun r =>
            decide (r.username = demoAliceGroup.username)))
      ∧ demoAliceGroup.changes ≠ []
      ∧ demoAliceGroup.userId
          = ((demoRows.filter (fun r =>
              decide (r.username = demoAliceGroup.username))).headI).userId)
    ∧ ((groupedChanges demoRows).map (fun g => g.changes.length)).sum
        = demoRows.length
    ∧ (groupedChanges demoRows).map (fun g => g.username)
        = firstSeen (demoRows.map (fun r => r.username)) :=
  ⟨(grouping_spec demoRows).2.1 demoAliceGroup (by decide),
   (grouping_spec demoRows).1, (grouping_spec demoRows).2.2⟩

/-- The progress counters (CitizenshipTracker.vue, line 30). -/
structure Progress where
  current : Nat
  total : Nat
deriving DecidableEq, Repr

/-- The summary tallies (CitizenshipTracker.vue, line 31). -/
structure Stats where
  total : Nat
  active : Nat
  inactive : Nat
deriving DecidableEq, Repr

/-- The reactive state fetchPlayersAndChanges reads and writes. -/
structure TrackerState where
  players : List PlayerData
  error : String
  progress : Progress
  stats : Stats
  loading : Bool
deriving DecidableEq, Repr

/-- The loop body for one roster user (CitizenshipTracker.vue, lines
181-213): bump the progress counter; a lite-fetch failure is only logged;
an inactive user bumps the inactive tally and is skipped; an active user
bumps the active tally and is appended as a player record — a change-log
failure is stored as that player's error state, with the loop carrying
on. -/
def processUser (lite : Except String UserData)
    (chg : Except String (List CitizenshipChange))
    (st : TrackerState) : TrackerState :=
  let st := { st with progress :=
    { st.progress with current := st.progress.current + 1 } }
  match lite with
  | .error _ => st
  | .ok u =>
    if !u.active then
      { st with stats := { st.stats with inactive := st.stats.inactive + 1 } }
    else
      let st := { st with stats :=
        { st.stats with active := st.stats.active + 1 } }
      match chg with
      | .ok items =>
        { st with players := st.players
            ++ [{ user := u, citizenshipChanges := items, loading := false,
                  error := none }] }
      | .error e =>
        { st with players := st.players
            ++ [{ user := u, citizenshipChanges := [], loading := false,
                  error := some ("Failed to load citizenship changes: " ++ e) }] }

/-- The record the batch keeps for one user, none when the user is skipped
(lite failure or inactive); depends only on that user's own fetch
outcomes. -/
def perUser (lite : Except String UserData)
    (chg : Except String (List CitizenshipChange)) : Option PlayerData :=
  match lite with
  | .error _ => none
  | .ok u =>
    if !u.active then none
    else some (match chg with
      | .ok items =>
        { user := u, citizenshipChanges := items, loading := false,
          error := none }
      | .error e =>
        { user := u, citizenshipChanges := [], loading := false,
          error := some ("Failed to load citizenship changes: " ++ e) })

/-- The state reset performed at the top of fetchPlayersAndChanges
(CitizenshipTracker.vue, lines 169-173). -/
def resetState : TrackerState :=
  { players := [], error := "", progress := { current := 0, total := 0 },
    stats := { total := 0, active := 0, inactive := 0 }, loading := true }

/-- fetchPlayersAndChanges from CitizenshipTracker.vue, lines 158-219.
prev is the state before the call (read by the guard branches); roster is
the outcome of the getUsersByCountry call (its items); lite and chg give
each user's fetch outcomes keyed by user identifier. -/
def fetchPlayersAndChanges (prev : TrackerState)
    (selectedCountryId authToken : String)
    (roster : Except String (List UserData))
    (lite : String → Except String UserData)
    (chg : String → Except String (List CitizenshipChange)) : TrackerState :=
  if selectedCountryId = "" then
    { prev with error := "Please select a country" }
  else if authToken = "" then
    { prev with error := "Please enter an authorization token" }
  else
    match roster with
    | .error e =>
      let msg := "Failed to fetch players: " ++ e
      { resetState with error := msg, loading := false }
    | .ok users =>
      let st1 := { resetState with
        progress := { current := 0, total := users.length },
        stats := { total := users.length, active := 0, inactive := 0 } }
      let stF := users.foldl
        (fun st u => processUser (lite u._id) (chg u._id) st) st1
      { stF with loading := false }

/-- The state after the loop has processed the first k roster users. -/
def trackerAfter (users : List UserData)
    (lite : String → Except String UserData)
    (chg : String → Except String (List CitizenshipChange)) (k : Nat) :
    TrackerState :=
  (users.take k).foldl
    (fun st u => processUser (lite u._id) (chg u._id) st)
    { resetState with
      progress := { current := 0, total := users.length },
      stats := { total := users.length, active := 0, inactive := 0 } }

lemma processUser_step (lite : Except String UserData)
    (chg : Except String (List CitizenshipChange)) (st : TrackerState) :
    (processUser lite chg st).players
        = st.players ++ (perUser lite chg).toList
      ∧ (processUser lite chg st).progress.current = st.progress.current + 1
      ∧ (processUser lite chg st).progress.total = st.progress.total
      ∧ (processUser lite chg st).stats.total = st.stats.total
      ∧ (processUser lite chg st).stats.active
          + (processUser lite chg st).stats.inactive
          ≤ st.stats.active + st.stats.inactive + 1 := by
  cases lite with
  | error e => simp [processUser, perUser]
  | ok u =>
    by_cases hu : u.active = true
    · cases chg with
      | ok items =>
        simp [processUser, perUser, hu]
        omega
      | error e =>
        simp [processUser, perUser, hu]
        omega
    · have hu' : u.active = false := by
        cases h2 : u.active
        · rfl
        · exact absurd h2 hu
      simp [processUser, perUser, hu']
      omega

lemma processUser_error (lite : Except String UserData)
    (chg : Except String (List CitizenshipChange)) (st : TrackerState) :
    (processUser lite chg st).error = st.error := by
  cases lite with
  | error e => rfl
  | ok u =>
    by_cases hu : u.active = true
    · cases chg <;> simp [processUser, hu]
    · have hu' : u.active = false := by
        cases h2 : u.active
        · rfl
        · exact absurd h2 hu
      simp [processUser, hu']

lemma foldl_processUser_error (lite : String → Except String UserData)
    (chg : String → Except String (List CitizenshipChange))
    (users : List UserData) :
    ∀ st : TrackerState,
    (users.foldl (fun st u => processUser (lite u._id) (chg u._id) st)
        st).error = st.error := by
  induction users with
  | nil => intro st; rfl
  | cons u us ih =>
    intro st
    rw [List.foldl_cons, ih, processUser_error]

lemma foldl_processUser (lite : String → Except String UserData)
    (chg : String → Except String (List CitizenshipChange))
    (users : List UserData) :
    ∀ st : TrackerState,
    (users.foldl (fun st u => processUser (lite u._id) (chg u._id) st)
          st).players
        = st.players
          ++ users.filterMap (fun u => perUser (lite u._id) (chg u._id))
      ∧ (users.foldl (fun st u => processUser (lite u._id) (chg u._id) st)
          st).progress.current = st.progress.current + users.length
      ∧ (users.foldl (fun st u => processUser (lite u._id) (chg u._id) st)
          st).progress.total = st.progress.total
      ∧ (users.foldl (fun st u => processUser (lite u._id) (chg u._id) st)
          st).stats.total = st.stats.total
      ∧ (users.foldl (fun st u => processUser (lite u._id) (chg u._id) st)
          st).stats.active
          + (users.foldl (fun st u => processUser (lite u._id) (chg u._id) st)
              st).stats.inactive
          ≤ st.stats.active + st.stats.inactive + users.length := by
  induction users with
  | nil => intro st; simp
  | cons u us ih =>
    intro st
    rcases processUser_step (lite u._id) (chg u._id) st with
      ⟨hp, hc, ht, hst, htal⟩
    rcases ih (processUser (lite u._id) (chg u._id) st) with
      ⟨ihp, ihc, iht, ihst, ihtal⟩
    refine ⟨?_, ?_, ?_, ?_, ?_⟩
    · rw [List.foldl_cons, ihp, hp, List.filterMap_cons]
      cases h : perUser (lite u._id) (chg u._id) <;>
        simp [h, List.append_assoc]
    · rw [List.foldl_cons, ihc, hc, List.length_cons]
      omega
    · rw [List.foldl_cons, iht, ht]
    · rw [List.foldl_cons, ihst, hst]
    · rw [List.foldl_cons] at *
      calc _ ≤ (processUser (lite u._id) (chg u._id) st).stats.active
            + (processUser (lite u._id) (chg u._id) st).stats.inactive
            + us.length := ihtal
        _ ≤ st.stats.active + st.stats.inactive + (u :: us).length := by
            rw [List.length_cons]; omega

/-- C7: with the guards passed, a successful roster fetch makes the loop
process every user — the resulting player list is a per-user filterMap, so
each record depends only on that user's own two fetch outcomes and no
failure aborts the rest, the progress counter reaches the roster length
and no batch error is set; an active user whose change-log fetch fails
yields a record carrying that failure as its error state; a roster fetch
failure produces no players and surfaces the user-visible message. -/
theorem fetch_isolation (prev : TrackerState) (sel tok : String)
    (lite : String → Except String UserData)
    (chg : String → Except String (List CitizenshipChange))
    (hsel : sel ≠ "") (htok : tok ≠ "") :
    (∀ users : List UserData,
        (fetchPlayersAndChanges prev sel tok (.ok users) lite chg).players
            = users.filterMap (fun u => perUser (lite u._id) (chg u._id))
          ∧ (fetchPlayersAndChanges prev sel tok
              (.ok users) lite chg).progress.current = users.length
          ∧ (fetchPlayersAndChanges prev sel tok (.ok users) lite chg).error
              = "")
      ∧ (∀ (uid : String) (v : UserData) (e : String),
          lite uid = .ok v → v.active = true → chg uid = .error e →
          perUser (lite uid) (chg uid)
            = some { user := v, citizenshipChanges := [], loading := false,
                     error :=
                       some ("Failed to load citizenship changes: " ++ e) })
      ∧ (∀ e : String,
          (fetchPlayersAndChanges prev sel tok (.error e) lite chg).players
              = []
            ∧ (fetchPlayersAndChanges prev sel tok (.error e) lite chg).error
                = "Failed to fetch players: " ++ e) := by
  have hfetch : ∀ users : List UserData,
      fetchPlayersAndChanges prev sel tok (.ok users) lite chg
        = { (users.foldl
              (fun st u => processUser (lite u._id) (chg u._id) st)
              { resetState with
                progress := { current := 0, total := users.length },
                stats :=
                  { total := users.length, active := 0, inactive := 0 } })
            with loading := false } := by
    intro users
    unfold fetchPlayersAndChanges
    rw [if_neg hsel, if_neg htok]
  refine ⟨?_, ?_, ?_⟩
  · intro users
    rcases foldl_processUser lite chg users
        { resetState with
          progress := { current := 0, total := users.length },
          stats := { total := users.length, active := 0, inactive := 0 } } with
      ⟨hp, hc, ht, hst, htal⟩
    have herr := foldl_processUser_error lite chg users
        { resetState with
          progress := { current := 0, total := users.length },
          stats := { total := users.length, active := 0, inactive := 0 } }
    refine ⟨?_, ?_, ?_⟩
    · rw [hfetch users]
      exact hp.trans (by simp [resetState])
    · rw [hfetch users]
      exact hc.trans (by simp [resetState])
    · rw [hfetch users]
      exact herr.trans (by simp [resetState])
  · intro uid v e hl ha hc
    rw [hl, hc]
    simp [perUser, ha]
  · intro e
    unfold fetchPlayersAndChanges
    rw [if_neg hsel, if_neg htok]
    exact ⟨rfl, rfl⟩

/-- Three concrete roster users: one active whose change-log fetch fails,
one whose lite fetch fails, one inactive. -/
def demoUsers : List UserData :=
  [{ _id := "a", username := "ann", lastConnectionAt := none, active := true },
   { _id := "b", username := "bea", lastConnectionAt := none, active := true },
   { _id := "c", username := "coy", lastConnectionAt := none, active := false }]

/-- Lite-fetch outcomes for the demo roster: user b's fetch fails. -/
def demoLite (uid : String) : Except String UserData :=
  if uid = "b" then .error "lite down"
  else if uid = "c" then
    .ok { _id := "c", username := "coy", lastConnectionAt := none,
          active := false }
  else .ok { _id := "a", username := "ann", lastConnectionAt := none,
             active := true }

/-- Change-log outcomes for the demo roster: user a's fetch fails. -/
def demoChg (uid : String) : Except String (List CitizenshipChange) :=
  if uid = "a" then .error "denied" else .ok []

/-- Witness for C7: on the demo roster the batch yields exactly the
per-user records (user a kept with the stored change-log error, b and c
skipped), the counter reaches 3, no batch error is set, and a roster
failure yields no players and the surfaced message. -/
theorem fetch_isolation_witness :
    (fetchPlayersAndChanges resetState "c1" "tok" (.ok demoUsers)
          demoLite demoChg).players
        = demoUsers.filterMap (fun u => perUser (demoLite u._id) (demoChg u._id))
      ∧ (fetchPlayersAndChanges resetState "c1" "tok" (.ok demoUsers)
          demoLite demoChg).progress.current = demoUsers.length
      ∧ (fetchPlayersAndChanges resetState "c1" "tok" (.ok demoUsers)
          demoLite demoChg).error = ""
      ∧ (fetchPlayersAndChanges resetState "c1" "tok" (.error "net")
          demoLite demoChg).players = []
      ∧ (fetchPlayersAndChanges resetState "c1" "tok" (.error "net")
          demoLite demoChg).error = "Failed to fetch players: " ++ "net" := by
  have h := fetch_isolation resetState "c1" "tok" demoLite demoChg
    (by decide) (by decide)
  exact ⟨(h.1 demoUsers).1, (h.1 demoUsers).2.1, (h.1 demoUsers).2.2,
    (h.2.2 "net").1, (h.2.2 "net").2⟩

/-- C10: at every point of the batch — after any number k of processed
roster users — the tallies satisfy active + inactive ≤ current and
current = k ≤ total, with both totals pinned to the roster length; a user
whose lite fetch fails only bumps the progress counter, touching neither
tally; and the final loop state, with loading cleared, is exactly what
fetchPlayersAndChanges returns when the guards pass and the roster fetch
succeeds. -/
theorem counters_invariant (users : List UserData)
    (lite : String → Except String UserData)
    (chg : String → Except String (List CitizenshipChange)) (k : Nat)
    (hk : k ≤ users.length) :
    (trackerAfter users lite chg k).stats.active
        + (trackerAfter users lite chg k).stats.inactive
        ≤ (trackerAfter users lite chg k).progress.current
      ∧ (trackerAfter users lite chg k).progress.current = k
      ∧ (trackerAfter users lite chg k).progress.total = users.length
      ∧ (trackerAfter users lite chg k).stats.total = users.length
      ∧ (∀ (st : TrackerState) (uid e : String), lite uid = .error e →
          processUser (lite uid) (chg uid) st
            = { st with progress :=
                { st.progress with current := st.progress.current + 1 } })
      ∧ (∀ (prev : TrackerState) (sel tok : String), sel ≠ "" → tok ≠ "" →
          fetchPlayersAndChanges prev sel tok (.ok users) lite chg
            = { trackerAfter users lite chg users.length with
                loading := false }) := by
  have hlen : (users.take k).length = k := by
    rw [List.length_take]
    omega
  rcases foldl_processUser lite chg (users.take k)
      { resetState with
        progress := { current := 0, total := users.length },
        stats := { total := users.length, active := 0, inactive := 0 } } with
    ⟨hp, hc, ht, hst, htal⟩
  have hcur : (trackerAfter users lite chg k).progress.current = k := by
    unfold trackerAfter
    rw [hc, hlen]
    simp [resetState]
  refine ⟨?_, hcur, ?_, ?_, ?_, ?_⟩
  · unfold trackerAfter at hcur ⊢
    rw [hcur]
    refine le_trans htal ?_
    simp [resetState, hlen]
  · unfold trackerAfter
    rw [ht]
  · unfold trackerAfter
    rw [hst]
  · intro st uid e hl
    rw [hl]
    rfl
  · intro prev sel tok hsel htok
    unfold fetchPlayersAndChanges trackerAfter
    rw [if_neg hsel, if_neg htok, List.take_length]

/-- Witness for C10: after processing two of the three demo roster users
(the second of which has a failing lite fetch) the tallies sum to at most
the counter, the counter reads 2 and both totals read 3. -/
theorem counters_invariant_witness :
    (trackerAfter demoUsers demoLite demoChg 2).stats.active
        + (trackerAfter demoUsers demoLite demoChg 2).stats.inactive
        ≤ (trackerAfter demoUsers demoLite demoChg 2).progress.current
      ∧ (trackerAfter demoUsers demoLite demoChg 2).progress.current = 2
      ∧ (trackerAfter demoUsers demoLite demoChg 2).progress.total = 3
      ∧ (trackerAfter demoUsers demoLite demoChg 2).stats.total = 3 := by
  have h := counters_invariant demoUsers demoLite demoChg 2 (by decide)
  exact ⟨h.1, h.2.1, h.2.2.1, h.2.2.2.1⟩

end WarEra
